import Mathlib

/-
  Verification of the hd-idle daemon (src/hd-idle.c) against its
  natural-language specification.

  The embedding below translates the idle-detection core of hd-idle.c into
  Lean definitions:

  - IdleRule / buildTable / resolve model the idle_time_t linked list built
    while processing -a / -i options (lines 193-230) and the timeout
    resolution loop (lines 338-343).  The list is built by prepending, so
    list order is evaluation order and the implicit default rule (pattern
    none) created first always sits at the tail.
  - DiskStats mirrors disk_stats_t; updateDisk mirrors the per-device
    branches of the main loop for an already-known disk (lines 345-368),
    emitting Event values for the spindown command and the spin-up log line.
  - spindown_disk models the SpindownExecutor (lines 451-494): the device
    environment says whether open succeeds, whether the ioctl succeeds and
    what masked status comes back; the function returns only the stderr
    messages it prints, and no success or failure value, exactly like the
    void C function.
  - buildTableE / registerDisk thread an allocation oracle through the
    allocation sites of main (lines 194-197, 216-219, 323-326) recording
    the exit code used on allocation failure.
  - computeMinIdle / computeSleepTime mirror the poll-interval computation
    (lines 262-271) over C ints, INT_MAX sentinel included.
  - is_scsi_disk mirrors the device classification (lines 625-640) as a
    function of the stat result (major, minor), with none for stat failure.
  - pollLoop models the main loop control skeleton (lines 293-377): the
    cancellation flag is observed only at the two checkpoints, the
    statistics file handle is opened and closed within a tick, and a failed
    open of the statistics file aborts with the fatal-error exit.
-/

namespace HdIdle

def DEFAULT_IDLE_TIME : Int := 600

def INT_MAX : Int := 2147483647

/-- One idle_time_t entry: pattern none is the implicit default rule. -/
structure IdleRule where
  pattern : Option String
  idle_time : Int
deriving Repr, DecidableEq

/-- The configuration directives that shape the idle-time list:
selectDisk is option -a, setTimeout is option -i. -/
inductive ConfigCmd where
  | selectDisk (name : String)
  | setTimeout (t : Int)
deriving Repr, DecidableEq

/-- The implicit default entry created before option processing
(lines 193-202). -/
def defaultRule : IdleRule := { pattern := none, idle_time := DEFAULT_IDLE_TIME }

/-- One step of option processing: -a prepends a fresh rule with the
default timeout (lines 214-225); -i mutates the most recently created
rule, which is always the head of the list (lines 227-230). -/
def applyCmd (l : List IdleRule) : ConfigCmd → List IdleRule
  | ConfigCmd.selectDisk n => { pattern := some n, idle_time := DEFAULT_IDLE_TIME } :: l
  | ConfigCmd.setTimeout t =>
    match l with
    | [] => []
    | r :: rest => { r with idle_time := t } :: rest

/-- The idle-time list after processing the whole command line. -/
def buildTable (cmds : List ConfigCmd) : List IdleRule :=
  cmds.foldl applyCmd [defaultRule]

/-- The match test of the resolution loop (line 339):
a default rule matches everything, a named rule matches by strcmp. -/
def ruleMatches (name : String) (r : IdleRule) : Bool :=
  match r.pattern with
  | none => true
  | some p => p == name

/-- The timeout resolution loop (lines 338-343): first matching rule wins. -/
def resolve (l : List IdleRule) (name : String) : Option Int :=
  match l.find? (ruleMatches name) with
  | some r => some r.idle_time
  | none => none

/-- disk_stats_t (lines 141-151); time_t values are modelled as Int. -/
structure DiskStats where
  name : String
  idle_time : Int
  last_io : Int
  spindown : Int
  spinup : Int
  reads : Nat
  writes : Nat
  spun_down : Bool
deriving Repr, DecidableEq

/-- The environment a spindown attempt runs against: whether open(2)
succeeds, whether the SG_IO ioctl succeeds, and the masked SCSI status. -/
structure DiskEnv where
  openOk : Bool
  ioctlOk : Bool
  masked_status : Nat
deriving Repr, DecidableEq

/-- scsi.h value for a check-condition masked status. -/
def CHECK_CONDITION : Nat := 1

/-- The stderr messages spindown_disk can print. -/
inductive Msg where
  | openError (dev : String)
  | ioctlError (dev : String)
  | statusError (status : Nat)
  | senseDump
deriving Repr, DecidableEq

/-- spindown_disk (lines 451-494): opens the device, issues the stop-unit
command, prints diagnostics on failure.  The C function returns void, so
the model returns only the printed messages and no status. -/
def spindown_disk (env : DiskEnv) (name : String) : List Msg :=
  if env.openOk = false then [Msg.openError name]
  else if env.ioctlOk = false then [Msg.ioctlError name]
  else if env.masked_status ≠ 0 then
    if env.masked_status = CHECK_CONDITION then
      [Msg.statusError env.masked_status, Msg.senseDump]
    else [Msg.statusError env.masked_status]
  else []

/-- What actually happened during a spindown attempt, as an observer of
the environment would classify it.  This value is computed nowhere in the
C program: spindown_disk does not report it to its caller. -/
inductive SpindownOutcome where
  | notOpened
  | ioctlFailed
  | badStatus (s : Nat)
  | success
deriving Repr, DecidableEq

def spindownOutcome (env : DiskEnv) : SpindownOutcome :=
  if env.openOk = false then SpindownOutcome.notOpened
  else if env.ioctlOk = false then SpindownOutcome.ioctlFailed
  else if env.masked_status ≠ 0 then SpindownOutcome.badStatus env.masked_status
  else SpindownOutcome.success

/-- Observable events emitted while updating one disk on one tick. -/
inductive Event where
  | spindownCmd (name : String) (msgs : List Msg)
  | spinupLog (name : String) (running : Int) (stopped : Int)
deriving Repr, DecidableEq

/-- The logging configuration: have_logfile is whether -l was given;
logOpenOk is whether fopen of the log file succeeds (lines 359-361, 501). -/
structure Config where
  have_logfile : Bool
  logOpenOk : Bool
deriving Repr, DecidableEq

/-- The per-device branches of the main loop for an already-known disk
(lines 345-368).  Counters unchanged: when not yet spun down and the
timeout is nonzero and now - last_io >= idle_time, issue the spindown
command and mark the disk spun down, unconditionally on the command
outcome.  Counters changed: if the disk was spun down, write the spin-up
log line computed by log_spinup (lines 517-521) and set spinup to now,
then store the observed counters, set last_io to now and clear spun_down. -/
def updateDisk (cfg : Config) (env : DiskEnv) (ds : DiskStats)
    (obsReads obsWrites : Nat) (now : Int) : DiskStats × List Event :=
  if ds.reads = obsReads ∧ ds.writes = obsWrites then
    if ds.spun_down = false then
      if ds.idle_time ≠ 0 ∧ now - ds.last_io ≥ ds.idle_time then
        ({ ds with spindown := now, spun_down := true },
         [Event.spindownCmd ds.name (spindown_disk env ds.name)])
      else (ds, [])
    else (ds, [])
  else
    if ds.spun_down = true then
      ({ ds with spinup := now, reads := obsReads, writes := obsWrites,
                 last_io := now, spun_down := false },
       if cfg.have_logfile = true ∧ cfg.logOpenOk = true then
         [Event.spinupLog ds.name (ds.spindown - ds.spinup) (now - ds.spindown)]
       else [])
    else
      ({ ds with reads := obsReads, writes := obsWrites,
                 last_io := now, spun_down := false }, [])

/-- A run of ticks in which the observed counters always equal the stored
counters, paired with the events each tick emits. -/
def constantRun (cfg : Config) (env : DiskEnv) :
    DiskStats → List Int → DiskStats × List (Int × List Event)
  | ds, [] => (ds, [])
  | ds, t :: ts =>
    let p := updateDisk cfg env ds ds.reads ds.writes t
    let q := constantRun cfg env p.1 ts
    (q.1, (t, p.2) :: q.2)

/-- A run of ticks with arbitrary observed counters and times. -/
def runTicks (cfg : Config) (env : DiskEnv) :
    DiskStats → List (Nat × Nat × Int) → DiskStats × List Event
  | ds, [] => (ds, [])
  | ds, (r, w, t) :: rest =>
    let p := updateDisk cfg env ds r w t
    let q := runTicks cfg env p.1 rest
    (q.1, p.2 ++ q.2)

def isSpindownEvent : Event → Bool
  | Event.spindownCmd _ _ => true
  | Event.spinupLog _ _ _ => false

/-- One pass of the registry over a snapshot: every known device is
updated in turn; a failing spindown command does not stop the pass. -/
def processPass (cfg : Config) (env : DiskEnv) (now : Int) :
    List (DiskStats × Nat × Nat) → List DiskStats × List Event
  | [] => ([], [])
  | (d, r, w) :: rest =>
    let p := updateDisk cfg env d r w now
    let q := processPass cfg env now rest
    (p.1 :: q.1, p.2 ++ q.2)

/-- One step of the min_idle_time loop (lines 264-268): take the timeout
when it is nonzero and strictly below the accumulator. -/
def minFoldStep (acc : Int) (r : IdleRule) : Int :=
  if r.idle_time ≠ 0 ∧ r.idle_time < acc then r.idle_time else acc

/-- min_idle_time computation (lines 262-268): running minimum over the
nonzero timeouts, seeded with INT_MAX. -/
def computeMinIdle (rules : List IdleRule) : Int :=
  rules.foldl minFoldStep INT_MAX

/-- sleep_time computation (lines 269-271); Int.tdiv is the C integer
division (truncation toward zero). -/
def computeSleepTime (rules : List IdleRule) : Int :=
  if Int.tdiv (computeMinIdle rules) 10 = 0 then 1
  else Int.tdiv (computeMinIdle rules) 10

/-- is_scsi_disk (lines 625-640) as a function of the stat result:
none models a failed stat (return 0), some (major, minor) a success. -/
def is_scsi_disk (statResult : Option (Nat × Nat)) : Bool :=
  match statResult with
  | none => false
  | some (maj, mnr) => maj == 8 && mnr % 16 == 0

/-- Allocation of the implicit default idle-time entry (lines 194-197):
on malloc failure the process exits with code 1. -/
def createDefaultEntry (mallocOk : Bool) : Except Nat IdleRule :=
  if mallocOk then Except.ok defaultRule else Except.error 1

/-- Allocation of an -a rule entry (lines 216-219): on malloc failure
the process exits with code 2. -/
def allocDiskRule (mallocOk : Bool) (n : String) : Except Nat IdleRule :=
  if mallocOk then Except.ok { pattern := some n, idle_time := DEFAULT_IDLE_TIME }
  else Except.error 2

/-- Pop one answer from the allocation oracle; an exhausted oracle means
the allocation succeeds. -/
def popOracle : List Bool → Bool × List Bool
  | [] => (true, [])
  | b :: r => (b, r)

def buildTableEAux : List Bool → List IdleRule → List ConfigCmd → Except Nat (List IdleRule)
  | _, acc, [] => Except.ok acc
  | o, acc, ConfigCmd.selectDisk n :: cs =>
    match allocDiskRule (popOracle o).1 n with
    | Except.error e => Except.error e
    | Except.ok r => buildTableEAux (popOracle o).2 (r :: acc) cs
  | o, acc, ConfigCmd.setTimeout t :: cs =>
    buildTableEAux o (applyCmd acc (ConfigCmd.setTimeout t)) cs

/-- Option processing with an explicit allocation oracle: the first oracle
answer feeds the default-entry malloc, later answers feed the -a mallocs.
The error value is the exit code the process uses. -/
def buildTableE (oracle : List Bool) (cmds : List ConfigCmd) : Except Nat (List IdleRule) :=
  match createDefaultEntry (popOracle oracle).1 with
  | Except.error e => Except.error e
  | Except.ok r => buildTableEAux (popOracle oracle).2 [r] cmds

/-- Registration of a newly observed disk (lines 321-343): malloc failure
exits with code 2; on success the record is copied from the parsed line,
last_io and spinup are set to now, spindown stays zeroed and the timeout
is resolved against the idle-time list. -/
def registerDisk (mallocOk : Bool) (table : List IdleRule) (name : String)
    (obsReads obsWrites : Nat) (now : Int) : Except Nat DiskStats :=
  if mallocOk then
    Except.ok { name := name, idle_time := (resolve table name).getD 0,
                last_io := now, spindown := 0, spinup := now,
                reads := obsReads, writes := obsWrites, spun_down := false }
  else Except.error 2

/-- The one-shot -t handling (lines 208-212): call spindown_disk, whose
result type carries no success or failure information, then return 0. -/
def mainOneShot (env : DiskEnv) (name : String) : Nat × List Msg :=
  (0, spindown_disk env name)

/-- What one iteration of the main loop can observe: the cancellation flag
at the first checkpoint (line 298), the flag value while the statistics
read is in progress (never consulted by the code), the flag at the second
checkpoint (line 374), and whether fopen of the statistics file succeeds
(line 301). -/
structure TickEnv where
  flagAtCheck1 : Bool
  flagDuringRead : Bool
  flagAtCheck2 : Bool
  openOk : Bool
deriving Repr, DecidableEq

inductive LoopExit where
  | cancelledAtCheck1
  | cancelledAtCheck2
  | statsOpenFailed
deriving Repr, DecidableEq

/-- Loop bookkeeping: how many full statistics snapshots were read, and
whether a statistics file handle is currently open. -/
structure LoopState where
  readsCompleted : Nat
  handleOpen : Bool
deriving Repr, DecidableEq

/-- The control skeleton of the main loop (lines 293-377): check the flag,
open the statistics file, read it completely, close it, check the flag
again, sleep, repeat.  A failed open is the fatal exit-code-2 path. -/
def pollLoop : List TickEnv → LoopState → Option LoopExit × LoopState
  | [], st => (none, st)
  | e :: rest, st =>
    if e.flagAtCheck1 = true then (some LoopExit.cancelledAtCheck1, st)
    else if e.openOk = false then (some LoopExit.statsOpenFailed, st)
    else
      let stClosed : LoopState :=
        { readsCompleted := st.readsCompleted + 1, handleOpen := false }
      if e.flagAtCheck2 = true then (some LoopExit.cancelledAtCheck2, stClosed)
      else pollLoop rest stClosed

/-- Concrete logging configuration used by witnesses. -/
def cfgEx : Config := { have_logfile := true, logOpenOk := true }

/-- Concrete healthy device environment used by witnesses. -/
def envEx : DiskEnv := { openOk := true, ioctlOk := true, masked_status := 0 }

/-- Concrete failing device environment: the device cannot be opened. -/
def envFail : DiskEnv := { openOk := false, ioctlOk := true, masked_status := 0 }

/-- Concrete device record used by witnesses: timeout 600, last I/O at 50. -/
def dsEx : DiskStats :=
  { name := "a", idle_time := 600, last_io := 50, spindown := 0, spinup := 0,
    reads := 1, writes := 2, spun_down := false }

/-- Concrete spun-down device record used by witnesses. -/
def dsDown : DiskStats :=
  { name := "b", idle_time := 30, last_io := 10, spindown := 40, spinup := 5,
    reads := 7, writes := 9, spun_down := true }

/- ===================== helper lemmas ===================== -/

/-- Unchanged counters, not spun down, timer not yet expired: the record
is untouched and nothing is emitted. -/
theorem updateDisk_idle_wait (cfg : Config) (env : DiskEnv) (ds : DiskStats) (now : Int)
    (h1 : ds.spun_down = false)
    (h2 : ¬(ds.idle_time ≠ 0 ∧ now - ds.last_io ≥ ds.idle_time)) :
    updateDisk cfg env ds ds.reads ds.writes now = (ds, []) := by
  simp [updateDisk, h1, h2]

/-- Unchanged counters, not spun down, timer expired: the spindown command
is issued and the record is marked spun down at time now. -/
theorem updateDisk_trigger (cfg : Config) (env : DiskEnv) (ds : DiskStats) (now : Int)
    (h1 : ds.spun_down = false)
    (h2 : ds.idle_time ≠ 0 ∧ now - ds.last_io ≥ ds.idle_time) :
    updateDisk cfg env ds ds.reads ds.writes now =
      ({ ds with spindown := now, spun_down := true },
       [Event.spindownCmd ds.name (spindown_disk env ds.name)]) := by
  simp [updateDisk, h1, h2.1, h2.2]

/-- Unchanged counters on a spun-down disk: the record is untouched and
nothing is emitted. -/
theorem updateDisk_inert (cfg : Config) (env : DiskEnv) (ds : DiskStats) (now : Int)
    (h1 : ds.spun_down = true) :
    updateDisk cfg env ds ds.reads ds.writes now = (ds, []) := by
  simp [updateDisk, h1]

/-- A spun-down disk with constant counters stays frozen: no events on any
tick of the run. -/
theorem constantRun_inert (cfg : Config) (env : DiskEnv) (ds : DiskStats)
    (ts : List Int) (h : ds.spun_down = true) :
    constantRun cfg env ds ts = (ds, ts.map fun t => (t, ([] : List Event))) := by
  induction ts with
  | nil => rfl
  | cons t ts ih =>
    simp [constantRun, updateDisk_inert cfg env ds t h, ih]

/-- While no tick has reached the idle threshold, a running disk with
constant counters is untouched and emits nothing. -/
theorem constantRun_no_trigger (cfg : Config) (env : DiskEnv) (ds : DiskStats)
    (pre : List Int) (hsd : ds.spun_down = false)
    (hpre : ∀ t ∈ pre, t - ds.last_io < ds.idle_time) :
    constantRun cfg env ds pre = (ds, pre.map fun t => (t, ([] : List Event))) := by
  induction pre with
  | nil => rfl
  | cons t ts ih =>
    have hstep : updateDisk cfg env ds ds.reads ds.writes t = (ds, []) :=
      updateDisk_idle_wait cfg env ds t hsd
        (fun hand => absurd hand.2 (not_le.mpr (hpre t (List.mem_cons_self t ts))))
    simp [constantRun, hstep, ih (fun u hu => hpre u (List.mem_cons_of_mem t hu))]

/- ===================== claim C1 ===================== -/

/-- Claim C1: for a device with configured timeout T greater than zero and
constant counters, the spindown command is issued exactly once, at the
first tick t0 with t0 - last_io at least T (the comparison is greater or
equal); at that tick spindown is set to t0 and spun_down becomes true, and
no event is emitted on any earlier or later tick of the run.  The second
conjunct settles the runs in which no tick reaches the threshold: the
record is untouched and nothing is emitted. -/
theorem claim1_spindown_exactly_once (cfg : Config) (env : DiskEnv) (ds : DiskStats)
    (pre rest : List Int) (t0 : Int)
    (hT : 0 < ds.idle_time) (hsd : ds.spun_down = false)
    (hpre : ∀ t ∈ pre, t - ds.last_io < ds.idle_time)
    (ht0 : t0 - ds.last_io ≥ ds.idle_time) :
    constantRun cfg env ds (pre ++ t0 :: rest) =
      ({ ds with spindown := t0, spun_down := true },
       pre.map (fun t => (t, ([] : List Event)))
         ++ (t0, [Event.spindownCmd ds.name (spindown_disk env ds.name)])
           :: rest.map (fun t => (t, ([] : List Event))))
    ∧ constantRun cfg env ds pre = (ds, pre.map fun t => (t, ([] : List Event))) := by
  refine ⟨?_, constantRun_no_trigger cfg env ds pre hsd hpre⟩
  induction pre with
  | nil =>
    have hstep := updateDisk_trigger cfg env ds t0 hsd ⟨ne_of_gt hT, ht0⟩
    have hrest := constantRun_inert cfg env
      { ds with spindown := t0, spun_down := true } rest rfl
    simp [constantRun, hstep, hrest]
  | cons t ts ih =>
    have hstep : updateDisk cfg env ds ds.reads ds.writes t = (ds, []) :=
      updateDisk_idle_wait cfg env ds t hsd
        (fun hand => absurd hand.2 (not_le.mpr (hpre t (List.mem_cons_self t ts))))
    simp [constantRun, hstep,
      ih (fun u hu => hpre u (List.mem_cons_of_mem t hu))]

/-- Witness for claim C1: a concrete device with timeout 600 and last I/O
at time 50, probed at times 649 (not yet idle long enough), 650 (exactly
the threshold, showing the comparison is greater or equal) and 700:
exactly one spindown command, at tick 650. -/
theorem claim1_witness :
    constantRun cfgEx envEx dsEx [649, 650, 700] =
      ({ dsEx with spindown := 650, spun_down := true },
       [(649, []), (650, [Event.spindownCmd "a" []]), (700, [])]) := by
  have h := (claim1_spindown_exactly_once cfgEx envEx dsEx [649] [700] 650
    (by decide) rfl (by decide) (by decide)).1
  simpa [dsEx, envEx, spindown_disk] using h

/- ===================== claim C2 ===================== -/

/-- Option processing preserves the shape of the idle-time list: named
rules in front, the single pattern-less default rule at the tail. -/
theorem buildAux_shape (cmds : List ConfigCmd) :
    ∀ (front : List IdleRule) (d : Int),
      (∀ r ∈ front, r.pattern ≠ none) →
      ∃ front2 d2,
        List.foldl applyCmd (front ++ [{ pattern := none, idle_time := d }]) cmds
            = front2 ++ [{ pattern := none, idle_time := d2 }]
          ∧ (∀ r ∈ front2, r.pattern ≠ none) := by
  induction cmds with
  | nil => exact fun front d h => ⟨front, d, rfl, h⟩
  | cons c cs ih =>
    intro front d h
    cases c with
    | selectDisk n =>
      rw [List.foldl_cons,
        show applyCmd (front ++ [{ pattern := none, idle_time := d }]) (ConfigCmd.selectDisk n)
            = ({ pattern := some n, idle_time := DEFAULT_IDLE_TIME } :: front)
                ++ [{ pattern := none, idle_time := d }] from rfl]
      refine ih _ d ?_
      intro r hr
      rcases List.mem_cons.mp hr with h1 | h2
      · rw [h1]; simp
      · exact h r h2
    | setTimeout t =>
      cases front with
      | nil =>
        rw [List.foldl_cons,
          show applyCmd ([] ++ [{ pattern := none, idle_time := d }]) (ConfigCmd.setTimeout t)
              = [] ++ [{ pattern := none, idle_time := t }] from rfl]
        exact ih [] t (by simp)
      | cons r f =>
        rw [List.foldl_cons,
          show applyCmd ((r :: f) ++ [{ pattern := none, idle_time := d }]) (ConfigCmd.setTimeout t)
              = ({ r with idle_time := t } :: f) ++ [{ pattern := none, idle_time := d }] from rfl]
        refine ih _ d ?_
        intro r2 hr2
        rcases List.mem_cons.mp hr2 with h1 | h2
        · rw [h1]
          simpa using h r (List.mem_cons_self r f)
        · exact h r2 (List.mem_cons_of_mem r h2)

/-- On a list of named rules followed by the default rule, resolution
returns the first named rule whose pattern equals the name under full
string equality, and the default timeout when no named rule matches. -/
theorem resolve_shape (front : List IdleRule) (d : Int) (name : String)
    (h : ∀ r ∈ front, r.pattern ≠ none) :
    resolve (front ++ [{ pattern := none, idle_time := d }]) name =
      some (match front.find? (fun r => decide (r.pattern = some name)) with
            | some r => r.idle_time
            | none => d) := by
  induction front with
  | nil => rfl
  | cons r f ih =>
    obtain ⟨p, hp⟩ : ∃ p, r.pattern = some p := by
      cases hr : r.pattern with
      | none => exact absurd hr (h r (List.mem_cons_self r f))
      | some p => exact ⟨p, rfl⟩
    by_cases hpn : p = name
    · have hp2 : r.pattern = some name := by rw [hp, hpn]
      have hm : ruleMatches name r = true := by simp [ruleMatches, hp2]
      have hd : (fun r => decide (r.pattern = some name)) r = true := by simp [hp2]
      simp [resolve, List.cons_append, List.find?_cons, hm, hd]
    · have hm : ruleMatches name r = false := by simp [ruleMatches, hp, hpn]
      have hd : (fun r => decide (r.pattern = some name)) r = false := by simp [hp, hpn]
      have ihh := ih (fun r2 h2 => h r2 (List.mem_cons_of_mem r h2))
      simpa [resolve, List.cons_append, List.find?_cons, hm, hd] using ihh

/-- Claim C2: the idle-time list built from any command line is a run of
named rules followed by the single pattern-less default rule; resolve
returns the timeout of the first named rule (in evaluation order, which is
reverse insertion order) whose pattern equals the name under full string
equality, or the default timeout otherwise, so it returns a result for
every name; and when two rules for the same name are added in sequence,
the later-added timeout wins. -/
theorem claim2_resolve_first_match (cmds : List ConfigCmd) (name : String) :
    (∃ front d, buildTable cmds = front ++ [{ pattern := none, idle_time := d }]
       ∧ (∀ r ∈ front, r.pattern ≠ none)
       ∧ resolve (buildTable cmds) name =
           some (match front.find? (fun r => decide (r.pattern = some name)) with
                 | some r => r.idle_time
                 | none => d))
    ∧ (∀ t1 t2 : Int,
        resolve (buildTable (cmds ++ [ConfigCmd.selectDisk name, ConfigCmd.setTimeout t1,
                                      ConfigCmd.selectDisk name, ConfigCmd.setTimeout t2])) name
          = some t2)
    ∧ (resolve (buildTable cmds) name).isSome = true := by
  obtain ⟨front, d, heq, hfront⟩ :=
    buildAux_shape cmds [] DEFAULT_IDLE_TIME (by simp)
  have heq2 : buildTable cmds = front ++ [{ pattern := none, idle_time := d }] := heq
  refine ⟨⟨front, d, heq2, hfront, by rw [heq2]; exact resolve_shape front d name hfront⟩,
    ?_, by rw [heq2, resolve_shape front d name hfront]; rfl⟩
  intro t1 t2
  have hfold : buildTable (cmds ++ [ConfigCmd.selectDisk name, ConfigCmd.setTimeout t1,
      ConfigCmd.selectDisk name, ConfigCmd.setTimeout t2]) =
      { pattern := some name, idle_time := t2 }
        :: { pattern := some name, idle_time := t1 } :: buildTable cmds := by
    rw [buildTable, List.foldl_append]
    rfl
  rw [hfold]
  simp [resolve, List.find?_cons, ruleMatches]

/-- Witness for claim C2: a table with one named rule resolves that name
to its timeout and every other name to the default; adding two rules for
the same disk in sequence makes the later timeout win. -/
theorem claim2_witness :
    resolve (buildTable [ConfigCmd.selectDisk "b", ConfigCmd.setTimeout 30]) "b" = some 30
    ∧ resolve (buildTable [ConfigCmd.selectDisk "b", ConfigCmd.setTimeout 30]) "c" = some 600
    ∧ resolve (buildTable ([ConfigCmd.setTimeout 100] ++
        [ConfigCmd.selectDisk "a", ConfigCmd.setTimeout 5,
         ConfigCmd.selectDisk "a", ConfigCmd.setTimeout 7])) "a" = some 7 := by
  refine ⟨by decide, by decide,
    (claim2_resolve_first_match [ConfigCmd.setTimeout 100] "a").2.1 5 7⟩

/- ===================== claim C3 ===================== -/

/-- Claim C3: a spun-down device is frozen through any ticks with
unchanged counters; the first tick whose observed counters differ emits
exactly one spin-up log entry (logging enabled and the log file openable)
whose running duration is spindown - spinup and whose stopped duration is
now - spindown, and sets spinup to now; and on every tick with changed
counters, spun down or not, the stored reads, writes and last_io are
updated to the observed values and now, and spun_down is cleared. -/
theorem claim3_spinup_logged (cfg : Config) (env : DiskEnv) (ds : DiskStats)
    (quiet : List Int) (obsReads obsWrites : Nat) (now : Int)
    (hsd : ds.spun_down = true)
    (hlog : cfg.have_logfile = true) (hopen : cfg.logOpenOk = true)
    (hchg : ¬(ds.reads = obsReads ∧ ds.writes = obsWrites)) :
    constantRun cfg env ds quiet = (ds, quiet.map fun t => (t, ([] : List Event)))
    ∧ updateDisk cfg env ds obsReads obsWrites now =
        ({ ds with spinup := now, reads := obsReads, writes := obsWrites,
                   last_io := now, spun_down := false },
         [Event.spinupLog ds.name (ds.spindown - ds.spinup) (now - ds.spindown)])
    ∧ (∀ d2 : DiskStats, ¬(d2.reads = obsReads ∧ d2.writes = obsWrites) →
        ((updateDisk cfg env d2 obsReads obsWrites now).1.reads = obsReads
         ∧ (updateDisk cfg env d2 obsReads obsWrites now).1.writes = obsWrites
         ∧ (updateDisk cfg env d2 obsReads obsWrites now).1.last_io = now
         ∧ (updateDisk cfg env d2 obsReads obsWrites now).1.spun_down = false)) := by
  refine ⟨constantRun_inert cfg env ds quiet hsd, ?_, ?_⟩
  · simp [updateDisk, hchg, hsd, hlog, hopen]
  · intro d2 hchg2
    cases hsd2 : d2.spun_down with
    | false => simp [updateDisk, hchg2, hsd2]
    | true => simp [updateDisk, hchg2, hsd2]

/-- Witness for claim C3: the concrete spun-down record dsDown, frozen at
ticks 60 and 90, then observing a read-counter change at time 100: one
spin-up log line with running 40 - 5 = 35 and stopped 100 - 40 = 60. -/
theorem claim3_witness :
    constantRun cfgEx envEx dsDown [60, 90] = (dsDown, [(60, []), (90, [])])
    ∧ updateDisk cfgEx envEx dsDown 8 9 100 =
        ({ dsDown with spinup := 100, reads := 8, writes := 9,
                       last_io := 100, spun_down := false },
         [Event.spinupLog "b" 35 60]) := by
  have h := claim3_spinup_logged cfgEx envEx dsDown [60, 90] 8 9 100
    rfl rfl rfl (by decide)
  exact ⟨h.1, by rw [h.2.1]; decide⟩

/- ===================== claim C6 ===================== -/

/-- A single tick never changes the configured timeout of a record. -/
theorem updateDisk_idle_time_const (cfg : Config) (env : DiskEnv) (ds : DiskStats)
    (r w : Nat) (t : Int) :
    (updateDisk cfg env ds r w t).1.idle_time = ds.idle_time := by
  by_cases h1 : ds.reads = r ∧ ds.writes = w
  · by_cases h2 : ds.spun_down = false
    · by_cases h3 : ds.idle_time ≠ 0 ∧ t - ds.last_io ≥ ds.idle_time
      · simp [updateDisk, h1, h2, h3]
      · simp [updateDisk, h1, h2, h3]
    · simp [updateDisk, h1, h2]
  · by_cases h2 : ds.spun_down = true
    · simp [updateDisk, h1, h2]
    · simp [updateDisk, h1, h2]

/-- A single tick on a record with zero timeout emits no spindown
command, whatever the observed counters. -/
theorem updateDisk_zero_timeout (cfg : Config) (env : DiskEnv) (ds : DiskStats)
    (r w : Nat) (t : Int) (h : ds.idle_time = 0) :
    ((updateDisk cfg env ds r w t).2.filter isSpindownEvent) = [] := by
  by_cases h1 : ds.reads = r ∧ ds.writes = w
  · by_cases h2 : ds.spun_down = false
    · simp [updateDisk, h1, h2, h]
    · simp [updateDisk, h1, h2]
  · by_cases h2 : ds.spun_down = true
    · simp [updateDisk, h1, h2, isSpindownEvent]
      intro a _ _ ha
      rw [ha]
    · simp [updateDisk, h1, h2]

/-- Claim C6: a device whose resolved idle timeout is zero is never sent
a spindown command, over any sequence of ticks with arbitrary observed
counters and times. -/
theorem claim6_zero_timeout_disables (cfg : Config) (env : DiskEnv) (ds : DiskStats)
    (obs : List (Nat × Nat × Int)) (h : ds.idle_time = 0) :
    ((runTicks cfg env ds obs).2.filter isSpindownEvent) = [] := by
  induction obs generalizing ds with
  | nil => rfl
  | cons o rest ih =>
    obtain ⟨r, w, t⟩ := o
    have hstep := updateDisk_zero_timeout cfg env ds r w t h
    have hnext : (updateDisk cfg env ds r w t).1.idle_time = 0 := by
      rw [updateDisk_idle_time_const cfg env ds r w t, h]
    simp [runTicks, List.filter_append, hstep, ih _ hnext]

/-- Witness for claim C6: a device with timeout zero, idle from time 0
through times 1000 and 1000000 with constant counters, then active at
time 2000000: no spindown command anywhere in the run. -/
theorem claim6_witness :
    ((runTicks cfgEx envEx
        { name := "c", idle_time := 0, last_io := 0, spindown := 0, spinup := 0,
          reads := 3, writes := 4, spun_down := false }
        [(3, 4, 1000), (3, 4, 1000000), (5, 4, 2000000)]).2.filter isSpindownEvent) = [] :=
  claim6_zero_timeout_disables cfgEx envEx
    { name := "c", idle_time := 0, last_io := 0, spindown := 0, spinup := 0,
      reads := 3, writes := 4, spun_down := false }
    [(3, 4, 1000), (3, 4, 1000000), (5, 4, 2000000)] rfl

/- ===================== claim C4 ===================== -/

/-- A failed spindown attempt always prints at least one diagnostic. -/
theorem spindown_disk_fail_logged (env : DiskEnv) (name : String)
    (h : spindownOutcome env ≠ SpindownOutcome.success) :
    spindown_disk env name ≠ [] := by
  by_cases ho : env.openOk = false
  · simp [spindown_disk, ho]
  · by_cases hi : env.ioctlOk = false
    · simp [spindown_disk, ho, hi]
    · by_cases hs : env.masked_status ≠ 0
      · by_cases hc : env.masked_status = CHECK_CONDITION
        · simp [spindown_disk, ho, hi, hs, hc, CHECK_CONDITION]
        · simp [spindown_disk, ho, hi, hs, hc]
      · exact absurd (by simp [spindownOutcome, ho, hi, hs]) h

/-- A registry pass updates every device handed to it. -/
theorem processPass_length (cfg : Config) (env : DiskEnv) (now : Int)
    (devs : List (DiskStats × Nat × Nat)) :
    (processPass cfg env now devs).1.length = devs.length := by
  induction devs with
  | nil => rfl
  | cons d rest ih =>
    obtain ⟨ds, r, w⟩ := d
    simp [processPass, ih]

/-- Counterexample to claim C4 as stated: at a concrete input where the
device cannot even be opened (so the spindown command fails), the record
is nevertheless marked as already spun down. -/
theorem claim4_counterexample :
    spindownOutcome envFail ≠ SpindownOutcome.success
    ∧ (updateDisk cfgEx envFail dsEx dsEx.reads dsEx.writes 650).1.spun_down = true :=
  ⟨by decide, by decide⟩

/-- Claim C4 amended: a spindown command failure is logged and is
non-fatal — the registry pass goes on to update every remaining device —
but the failing device does not retain its previous state: spindown_disk
reports no result to its caller, so the record is marked spun down
(spun_down true, spindown = now) whether or not the command succeeded. -/
theorem claim4_failure_nonfatal_but_marked (cfg : Config) (env : DiskEnv)
    (ds : DiskStats) (now : Int) (rest : List (DiskStats × Nat × Nat))
    (hsd : ds.spun_down = false)
    (htrig : ds.idle_time ≠ 0 ∧ now - ds.last_io ≥ ds.idle_time)
    (hfail : spindownOutcome env ≠ SpindownOutcome.success) :
    spindown_disk env ds.name ≠ []
    ∧ (updateDisk cfg env ds ds.reads ds.writes now).1.spun_down = true
    ∧ (updateDisk cfg env ds ds.reads ds.writes now).1.spindown = now
    ∧ (processPass cfg env now ((ds, ds.reads, ds.writes) :: rest)).1.length
        = rest.length + 1 := by
  have hstep := updateDisk_trigger cfg env ds now hsd htrig
  exact ⟨spindown_disk_fail_logged env ds.name hfail,
    by rw [hstep], by rw [hstep],
    processPass_length cfg env now ((ds, ds.reads, ds.writes) :: rest)⟩

/-- Witness for the amended claim C4: device dsEx with the unopenable
environment envFail at time 650: the failure is logged, the record is
marked spun down at 650, and the second device in the pass is still
processed. -/
theorem claim4_witness :
    spindown_disk envFail dsEx.name ≠ []
    ∧ (updateDisk cfgEx envFail dsEx dsEx.reads dsEx.writes 650).1.spun_down = true
    ∧ (updateDisk cfgEx envFail dsEx dsEx.reads dsEx.writes 650).1.spindown = 650
    ∧ (processPass cfgEx envFail 650 [(dsEx, dsEx.reads, dsEx.writes), (dsDown, 7, 9)]).1.length
        = 2 := by
  have h := claim4_failure_nonfatal_but_marked cfgEx envFail dsEx 650 [(dsDown, 7, 9)]
    rfl (by decide) (by decide)
  exact ⟨h.1, h.2.1, h.2.2.1, h.2.2.2⟩

/- ===================== claim C5 ===================== -/

/-- Every allocation failure during option scanning after the initial
default entry exits with code 2. -/
theorem buildTableEAux_error_code (cmds : List ConfigCmd) :
    ∀ (o : List Bool) (acc : List IdleRule) (e : Nat),
      buildTableEAux o acc cmds = Except.error e → e = 2 := by
  induction cmds with
  | nil => intro o acc e h; simp [buildTableEAux] at h
  | cons c cs ih =>
    intro o acc e h
    cases c with
    | selectDisk n =>
      by_cases hok : (popOracle o).1 = true
      · rw [show buildTableEAux o acc (ConfigCmd.selectDisk n :: cs)
              = buildTableEAux (popOracle o).2
                  ({ pattern := some n, idle_time := DEFAULT_IDLE_TIME } :: acc) cs from by
            simp [buildTableEAux, allocDiskRule, hok]] at h
        exact ih _ _ _ h
      · have hko : (popOracle o).1 = false := by simpa using hok
        rw [show buildTableEAux o acc (ConfigCmd.selectDisk n :: cs)
              = Except.error 2 from by simp [buildTableEAux, allocDiskRule, hko]] at h
        simpa using h.symm
    | setTimeout t =>
      rw [show buildTableEAux o acc (ConfigCmd.setTimeout t :: cs)
            = buildTableEAux o (applyCmd acc (ConfigCmd.setTimeout t)) cs from rfl] at h
      exact ih _ _ _ h

/-- Counterexample to claim C5 as stated: the very first allocation site,
the implicit default idle-time entry (lines 194-197), exits with code 1
on allocation failure, not 2. -/
theorem claim5_counterexample :
    buildTableE [false] [] = Except.error 1 ∧ (1 : Nat) ≠ 2 :=
  ⟨rfl, by decide⟩

/-- Claim C5 amended: every allocation failure is fatal, but the exit
code is 2 only at the allocation sites after the first one (the -a rule
entries and the per-disk state records); the initial default-entry
allocation failure exits with code 1. -/
theorem claim5_alloc_failure_codes (oracle : List Bool) (cmds : List ConfigCmd)
    (table : List IdleRule) (name : String) (r w : Nat) (now : Int) :
    (∀ e, buildTableE (true :: oracle) cmds = Except.error e → e = 2)
    ∧ buildTableE (false :: oracle) cmds = Except.error 1
    ∧ registerDisk false table name r w now = Except.error 2 := by
  refine ⟨?_, rfl, rfl⟩
  intro e h
  have h2 : buildTableEAux oracle [defaultRule] cmds = Except.error e := by
    simpa [buildTableE, popOracle, createDefaultEntry] using h
  exact buildTableEAux_error_code cmds oracle _ e h2

/-- Witness for the amended claim C5: a failing -a allocation exits with
code 2, a failing default-entry allocation exits with code 1, a failing
disk-record allocation exits with code 2. -/
theorem claim5_witness :
    ((2 : Nat) = 2)
    ∧ buildTableE [false] [ConfigCmd.selectDisk "a"] = Except.error 1
    ∧ registerDisk false [] "a" 0 0 0 = Except.error 2 := by
  have h := claim5_alloc_failure_codes [false] [ConfigCmd.selectDisk "a"] [] "a" 0 0 0
  exact ⟨h.1 2 rfl, h.2.1, h.2.2⟩

/- ===================== claim C7 ===================== -/

/-- Claim C7: the whole-disk SCSI classification accepts a device exactly
when its major number is 8 and its minor number is a multiple of 16; a
device whose stat fails is rejected. -/
theorem claim7_classification (maj mnr : Nat) :
    (is_scsi_disk (some (maj, mnr)) = true ↔ (maj = 8 ∧ mnr % 16 = 0))
    ∧ is_scsi_disk none = false := by
  constructor
  · simp [is_scsi_disk]
  · rfl

/-- Witness for claim C7: sda-like (8, 0) and sdc-like (8, 32) whole
disks are accepted; a partition (8, 33) and a non-SCSI major (3, 0) are
rejected, as is a device without stat data. -/
theorem claim7_witness :
    is_scsi_disk (some (8, 0)) = true
    ∧ is_scsi_disk (some (8, 32)) = true
    ∧ is_scsi_disk (some (8, 33)) = false
    ∧ is_scsi_disk (some (3, 0)) = false
    ∧ is_scsi_disk none = false := by
  refine ⟨(claim7_classification 8 0).1.mpr (by decide),
    (claim7_classification 8 32).1.mpr (by decide), by decide, by decide,
    (claim7_classification 3 0).2⟩

/- ===================== claim C8 ===================== -/

/-- The min_idle_time fold never goes above its seed. -/
theorem minFold_le_init (rules : List IdleRule) :
    ∀ a : Int, rules.foldl minFoldStep a ≤ a := by
  induction rules with
  | nil => intro a; simp
  | cons r rs ih =>
    intro a
    rw [List.foldl_cons]
    by_cases h : r.idle_time ≠ 0 ∧ r.idle_time < a
    · rw [show minFoldStep a r = r.idle_time from by simp [minFoldStep, h]]
      exact le_trans (ih r.idle_time) (le_of_lt h.2)
    · rw [show minFoldStep a r = a from by simp [minFoldStep, h]]
      exact ih a

/-- The min_idle_time fold yields its seed or a nonzero timeout from the
list. -/
theorem minFold_mem (rules : List IdleRule) :
    ∀ a : Int, rules.foldl minFoldStep a = a
      ∨ ∃ r ∈ rules, r.idle_time ≠ 0 ∧ rules.foldl minFoldStep a = r.idle_time := by
  induction rules with
  | nil => intro a; exact Or.inl rfl
  | cons r rs ih =>
    intro a
    rw [List.foldl_cons]
    by_cases h : r.idle_time ≠ 0 ∧ r.idle_time < a
    · rw [show minFoldStep a r = r.idle_time from by simp [minFoldStep, h]]
      rcases ih r.idle_time with h1 | ⟨r2, hr2, hne, heq⟩
      · exact Or.inr ⟨r, List.mem_cons_self r rs, h.1, h1⟩
      · exact Or.inr ⟨r2, List.mem_cons_of_mem r hr2, hne, heq⟩
    · rw [show minFoldStep a r = a from by simp [minFoldStep, h]]
      rcases ih a with h1 | ⟨r2, hr2, hne, heq⟩
      · exact Or.inl h1
      · exact Or.inr ⟨r2, List.mem_cons_of_mem r hr2, hne, heq⟩

/-- The min_idle_time fold is a lower bound of every nonzero timeout. -/
theorem minFold_le_elem (rules : List IdleRule) :
    ∀ a : Int, ∀ r ∈ rules, r.idle_time ≠ 0 → rules.foldl minFoldStep a ≤ r.idle_time := by
  induction rules with
  | nil => intro a r hr; exact absurd hr (List.not_mem_nil r)
  | cons r rs ih =>
    intro a r2 hr2 hne
    rw [List.foldl_cons]
    rcases List.mem_cons.mp hr2 with h1 | h2
    · by_cases h : r.idle_time ≠ 0 ∧ r.idle_time < a
      · rw [show minFoldStep a r = r.idle_time from by simp [minFoldStep, h]]
        rw [h1]
        exact minFold_le_init rs r.idle_time
      · rw [show minFoldStep a r = a from by simp [minFoldStep, h]]
        have hge : a ≤ r.idle_time := by
          rcases not_and_or.mp h with hz | hlt
          · exact absurd (h1 ▸ hne) hz
          · exact le_of_not_lt hlt
        exact le_trans (minFold_le_init rs a) (h1 ▸ hge)
    · by_cases h : r.idle_time ≠ 0 ∧ r.idle_time < a
      · rw [show minFoldStep a r = r.idle_time from by simp [minFoldStep, h]]
        exact ih r.idle_time r2 h2 hne
      · rw [show minFoldStep a r = a from by simp [minFoldStep, h]]
        exact ih a r2 h2 hne

/-- When min_idle_time is nonnegative, sleep_time is exactly
max(1, min_idle_time / 10). -/
theorem computeSleepTime_eq_max (rules : List IdleRule)
    (h0 : 0 ≤ computeMinIdle rules) :
    computeSleepTime rules = max 1 (Int.tdiv (computeMinIdle rules) 10) := by
  unfold computeSleepTime
  by_cases hz : Int.tdiv (computeMinIdle rules) 10 = 0
  · rw [if_pos hz, hz]
    decide
  · rw [if_neg hz]
    have hq : 0 ≤ Int.tdiv (computeMinIdle rules) 10 :=
      Int.tdiv_nonneg h0 (by decide)
    have h1 : 1 ≤ Int.tdiv (computeMinIdle rules) 10 := by omega
    exact (max_eq_right h1).symm

/-- Claim C8: for a policy table whose timeouts are C ints in range and
at least one of which is nonzero, the poll interval is
max(1, m / 10) seconds where m is the minimum of the nonzero timeouts and
the division is the C integer division. -/
theorem claim8_poll_interval (rules : List IdleRule)
    (hb : ∀ r ∈ rules, 0 ≤ r.idle_time ∧ r.idle_time ≤ INT_MAX)
    (hnz : ∃ r ∈ rules, r.idle_time ≠ 0) :
    ∃ m, (∃ r ∈ rules, r.idle_time = m) ∧ m ≠ 0
      ∧ (∀ r ∈ rules, r.idle_time ≠ 0 → m ≤ r.idle_time)
      ∧ computeSleepTime rules = max 1 (Int.tdiv m 10) := by
  obtain ⟨r0, hr0, hne0⟩ := hnz
  have hM_le_r0 : computeMinIdle rules ≤ r0.idle_time :=
    minFold_le_elem rules INT_MAX r0 hr0 hne0
  rcases minFold_mem rules INT_MAX with hMa | ⟨r1, hr1, hne1, heq⟩
  · have hMa2 : computeMinIdle rules = INT_MAX := hMa
    have h2 : r0.idle_time = computeMinIdle rules :=
      le_antisymm (hMa2 ▸ (hb r0 hr0).2) hM_le_r0
    refine ⟨computeMinIdle rules, ⟨r0, hr0, h2⟩, h2 ▸ hne0,
      fun r hr hne => minFold_le_elem rules INT_MAX r hr hne,
      computeSleepTime_eq_max rules ?_⟩
    rw [hMa2]
    decide
  · have heq2 : computeMinIdle rules = r1.idle_time := heq
    refine ⟨computeMinIdle rules, ⟨r1, hr1, heq2.symm⟩, heq2 ▸ hne1,
      fun r hr hne => minFold_le_elem rules INT_MAX r hr hne,
      computeSleepTime_eq_max rules ?_⟩
    rw [heq2]
    exact (hb r1 hr1).1

/-- Witness for claim C8: the default table alone (one rule, timeout 600)
yields a poll interval of 60 = max(1, 600 / 10) seconds. -/
theorem claim8_witness :
    (∀ r ∈ [defaultRule], 0 ≤ r.idle_time ∧ r.idle_time ≤ INT_MAX)
    ∧ computeSleepTime [defaultRule] = 60
    ∧ ∃ m, (∃ r ∈ [defaultRule], r.idle_time = m) ∧ m ≠ 0
        ∧ (∀ r ∈ [defaultRule], r.idle_time ≠ 0 → m ≤ r.idle_time)
        ∧ computeSleepTime [defaultRule] = max 1 (Int.tdiv m 10) :=
  ⟨by decide, by decide,
    claim8_poll_interval [defaultRule] (by decide)
      ⟨defaultRule, List.mem_cons_self defaultRule [], by decide⟩⟩

/- ===================== claim C9 ===================== -/

/-- The statistics file handle is never left open: every exit of the loop
happens with the handle closed. -/
theorem pollLoop_handle_closed (sched : List TickEnv) :
    ∀ st : LoopState, st.handleOpen = false →
      (pollLoop sched st).2.handleOpen = false := by
  induction sched with
  | nil => intro st h; exact h
  | cons e rest ih =>
    intro st h
    by_cases h1 : e.flagAtCheck1 = true
    · simpa [pollLoop, h1] using h
    · by_cases h2 : e.openOk = false
      · simpa [pollLoop, h1, h2] using h
      · by_cases h3 : e.flagAtCheck2 = true
        · simp [pollLoop, h1, h2, h3]
        · simpa [pollLoop, h1, h2, h3] using
            ih { readsCompleted := st.readsCompleted + 1, handleOpen := false } rfl

/-- The cancellation flag is consulted only at the two checkpoints: its
value while the statistics read is in progress cannot change anything. -/
theorem pollLoop_ignores_mid_tick_flag (sched : List TickEnv) :
    ∀ st : LoopState,
      pollLoop (sched.map fun e => { e with flagDuringRead := false }) st
        = pollLoop sched st := by
  induction sched with
  | nil => intro st; rfl
  | cons e rest ih =>
    intro st
    by_cases h1 : e.flagAtCheck1 = true
    · simp [pollLoop, h1]
    · by_cases h2 : e.openOk = false
      · simp [pollLoop, h1, h2]
      · by_cases h3 : e.flagAtCheck2 = true
        · simp [pollLoop, h1, h2, h3]
        · simp [pollLoop, h1, h2, h3, ih]

/-- If no checkpoint ever observes the flag and the statistics file always
opens, the loop never exits. -/
theorem pollLoop_no_flag_no_exit (sched : List TickEnv) :
    ∀ st : LoopState,
      (∀ e ∈ sched, e.flagAtCheck1 = false ∧ e.flagAtCheck2 = false ∧ e.openOk = true) →
      (pollLoop sched st).1 = none := by
  induction sched with
  | nil => intro st _; rfl
  | cons e rest ih =>
    intro st h
    obtain ⟨he1, he2, he3⟩ := h e (List.mem_cons_self e rest)
    simp [pollLoop, he1, he2, he3,
      ih _ (fun e2 h2 => h e2 (List.mem_cons_of_mem e h2))]

/-- A cancellation exit implies the flag was actually observed true at a
checkpoint of some iteration. -/
theorem pollLoop_cancel_observed (sched : List TickEnv) :
    ∀ (st : LoopState) (ex : LoopExit), (pollLoop sched st).1 = some ex →
      (ex = LoopExit.cancelledAtCheck1 ∨ ex = LoopExit.cancelledAtCheck2) →
      ∃ e ∈ sched, e.flagAtCheck1 = true ∨ e.flagAtCheck2 = true := by
  induction sched with
  | nil => intro st ex h _; simp [pollLoop] at h
  | cons e rest ih =>
    intro st ex h hex
    by_cases h1 : e.flagAtCheck1 = true
    · exact ⟨e, List.mem_cons_self e rest, Or.inl h1⟩
    · by_cases h2 : e.openOk = false
      · rw [show (pollLoop (e :: rest) st).1 = some LoopExit.statsOpenFailed from by
            simp [pollLoop, h1, h2]] at h
        rcases hex with h3 | h3 <;> simp [← h3] at h <;> exact absurd h.symm (by simp [h3])
      · by_cases h3 : e.flagAtCheck2 = true
        · exact ⟨e, List.mem_cons_self e rest, Or.inr h3⟩
        · rw [show (pollLoop (e :: rest) st).1
              = (pollLoop rest { readsCompleted := st.readsCompleted + 1,
                                 handleOpen := false }).1 from by
              simp [pollLoop, h1, h2, h3]] at h
          obtain ⟨e2, he2, hf⟩ := ih _ ex h hex
          exact ⟨e2, List.mem_cons_of_mem e he2, hf⟩

/-- Claim C9: the poll loop is cooperatively cancelled.  Starting with no
statistics handle open: the loop always finishes with the handle closed;
the flag value between the two checkpoints has no influence on the whole
run; if no checkpoint observes the flag and the statistics file always
opens, the loop does not exit; and a cancellation exit can only happen
when the flag was observed true at a checkpoint of some iteration. -/
theorem claim9_cooperative_cancellation (sched : List TickEnv) (st : LoopState)
    (h : st.handleOpen = false) :
    (pollLoop sched st).2.handleOpen = false
    ∧ pollLoop (sched.map fun e => { e with flagDuringRead := false }) st
        = pollLoop sched st
    ∧ ((∀ e ∈ sched, e.flagAtCheck1 = false ∧ e.flagAtCheck2 = false ∧ e.openOk = true) →
        (pollLoop sched st).1 = none)
    ∧ (∀ ex, (pollLoop sched st).1 = some ex →
        (ex = LoopExit.cancelledAtCheck1 ∨ ex = LoopExit.cancelledAtCheck2) →
        ∃ e ∈ sched, e.flagAtCheck1 = true ∨ e.flagAtCheck2 = true) :=
  ⟨pollLoop_handle_closed sched st h,
   pollLoop_ignores_mid_tick_flag sched st,
   pollLoop_no_flag_no_exit sched st,
   fun ex hx hex => pollLoop_cancel_observed sched st ex hx hex⟩

/-- Witness for claim C9: a two-tick schedule in which the flag is raised
mid-read of the first tick but only observed at the second checkpoint of
the second tick: the loop completes both statistics reads, exits at the
second checkpoint, and the handle is closed. -/
theorem claim9_witness :
    pollLoop
        [{ flagAtCheck1 := false, flagDuringRead := true, flagAtCheck2 := false, openOk := true },
         { flagAtCheck1 := false, flagDuringRead := false, flagAtCheck2 := true, openOk := true }]
        { readsCompleted := 0, handleOpen := false }
      = (some LoopExit.cancelledAtCheck2, { readsCompleted := 2, handleOpen := false })
    ∧ (pollLoop
        [{ flagAtCheck1 := false, flagDuringRead := true, flagAtCheck2 := false, openOk := true },
         { flagAtCheck1 := false, flagDuringRead := false, flagAtCheck2 := true, openOk := true }]
        { readsCompleted := 0, handleOpen := false }).2.handleOpen = false
    ∧ ∃ e ∈ [({ flagAtCheck1 := false, flagDuringRead := true, flagAtCheck2 := false,
                openOk := true } : TickEnv),
             { flagAtCheck1 := false, flagDuringRead := false, flagAtCheck2 := true,
               openOk := true }],
        e.flagAtCheck1 = true ∨ e.flagAtCheck2 = true := by
  have h := claim9_cooperative_cancellation
    [{ flagAtCheck1 := false, flagDuringRead := true, flagAtCheck2 := false, openOk := true },
     { flagAtCheck1 := false, flagDuringRead := false, flagAtCheck2 := true, openOk := true }]
    { readsCompleted := 0, handleOpen := false } rfl
  exact ⟨by decide, h.1, h.2.2.2 LoopExit.cancelledAtCheck2 (by decide) (Or.inr rfl)⟩

/- ===================== claim C10 ===================== -/

/-- Claim C10: the one-shot spin-down-and-exit command returns exit code 0
for every device environment, including every failing one: spindown_disk
reports no result, so the outcome of the command cannot reach the exit
code. -/
theorem claim10_one_shot_exits_zero (env : DiskEnv) (name : String) :
    (mainOneShot env name).1 = 0
    ∧ (mainOneShot env name).1 = (mainOneShot envEx name).1 :=
  ⟨rfl, rfl⟩

end HdIdle
